import Mathlib

/-!
Verification of the prompt-forge MCP server core (src-tauri/src/mcp_server.rs,
with supporting definitions from models.rs, db.rs and commands.rs).

The Rust code is shallowly embedded: structs become structures, enums become
inductives, `serde_json::Value` becomes the `Json` inductive below, fallible
functions return `Except`, and the `&mut self` state of `McpServer` is passed
explicitly.  The SQLite database behind `Database` is external to the core; a
load from it is modelled by a `DbLoadResult` record holding the outcome of
`Database::open` and of the three `get_all_*` queries, exactly the four
fallible steps `McpServer::load_data` performs.
-/

namespace PromptForge

/-- Model of `serde_json::Value`.  Field order in `obj` mirrors the order
written in the source; no claim below depends on object key order.  Rust
distinguishes integer and floating JSON numbers, hence two constructors. -/
inductive Json where
  | null : Json
  | bool (b : Bool) : Json
  | int (n : Int) : Json
  | float (x : Float) : Json
  | str (s : String) : Json
  | arr (elems : List Json) : Json
  | obj (fields : List (String × Json)) : Json

/-- Model of `Value::get(key)` followed by the implicit object access: returns
the field of an object, `none` on any non-object or missing key. -/
def Json.get? : Json → String → Option Json
  | .obj fields, key => fields.lookup key
  | _, _ => none

/-- Model of `Value::as_str`. -/
def Json.asStr? : Json → Option String
  | .str s => some s
  | _ => none

-- ============================================================================
-- Data model (models.rs)
-- ============================================================================

/-- `Personality` from models.rs.  The `f32` fields are modelled as `Float`. -/
structure Personality where
  tone : String
  verbosity : String
  creativity : Float
  formality : Float
  traits : List String

/-- `Agent` from models.rs.  `chrono::DateTime<Utc>` fields are modelled by
their RFC 3339 serialization, which is how serde renders them. -/
structure Agent where
  id : String
  name : String
  description : String
  avatar_emoji : String
  personality : Personality
  system_prompt : String
  skills : List String
  instructions : List String
  tags : List String
  created_at : String
  updated_at : String
  usage_count : Int
  last_used_at : Option String

/-- `SkillType` from models.rs. -/
inductive SkillType where
  | Prompt : SkillType
  | Tool : SkillType
  | Workflow : SkillType
deriving DecidableEq

/-- `ToolParameter` from models.rs. -/
structure ToolParameter where
  name : String
  description : String
  param_type : String
  required : Bool
  default : Option Json

/-- `WorkflowStep` from models.rs. -/
structure WorkflowStep where
  id : String
  name : String
  action : String
  inputs : Json
  outputs : List String

/-- `SkillDefinition` from models.rs (internally tagged enum). -/
inductive SkillDefinition where
  | Prompt (template : String) : SkillDefinition
  | Tool (parameters : List ToolParameter) (handler : String) : SkillDefinition
  | Workflow (steps : List WorkflowStep) : SkillDefinition

/-- `Skill` from models.rs. -/
structure Skill where
  id : String
  name : String
  description : String
  icon_emoji : String
  skill_type : SkillType
  definition : SkillDefinition
  enabled : Bool
  created_at : String
  updated_at : String

/-- `InstructionCategory` from models.rs. -/
inductive InstructionCategory where
  | General : InstructionCategory
  | CodeStyle : InstructionCategory
  | Communication : InstructionCategory
  | Workflow : InstructionCategory
  | Security : InstructionCategory
  | Testing : InstructionCategory
  | Documentation : InstructionCategory
  | Custom : InstructionCategory
deriving DecidableEq

/-- `Instruction` from models.rs.  `priority: u8` is modelled as `Nat`; it is
only ever compared and printed, never subjected to arithmetic. -/
structure Instruction where
  id : String
  name : String
  description : String
  icon_emoji : String
  category : InstructionCategory
  content : String
  priority : Nat
  tags : List String
  enabled : Bool
  created_at : String
  updated_at : String
deriving DecidableEq

/-- `category_to_string` from mcp_server.rs (identical to the copy in db.rs). -/
def category_to_string : InstructionCategory → String
  | .General => "general"
  | .CodeStyle => "code_style"
  | .Communication => "communication"
  | .Workflow => "workflow"
  | .Security => "security"
  | .Testing => "testing"
  | .Documentation => "documentation"
  | .Custom => "custom"

-- ============================================================================
-- MCP server state and snapshot loading (mcp_server.rs lines 124-164)
-- ============================================================================

/-- `McpServer` from mcp_server.rs.  The `PathBuf` is modelled as a plain
string; it is never inspected by the core. -/
structure McpServer where
  db_path : String
  agents : List Agent
  skills : List Skill
  instructions : List Instruction

/-- The outcome of one interaction with the external SQLite store: the result
of `Database::open` and of the three `get_all_*` queries, which are exactly
the fallible steps of `McpServer::load_data`. -/
structure DbLoadResult where
  openResult : Except String Unit
  agentsResult : Except String (List Agent)
  skillsResult : Except String (List Skill)
  instructionsResult : Except String (List Instruction)

/-- `McpServer::load_data` (mcp_server.rs lines 141-164).  Each failing step
returns early with `?` after `map_err`, so the three collection fields are
assigned one at a time: a failure part-way through keeps the assignments
already made. -/
def load_data (s : McpServer) (db : DbLoadResult) : McpServer × Except String Unit :=
  match db.openResult with
  | .error e => (s, .error ("Failed to open database: " ++ e))
  | .ok _ =>
    match db.agentsResult with
    | .error e => (s, .error ("Failed to load agents: " ++ e))
    | .ok newAgents =>
      let s1 := { s with agents := newAgents }
      match db.skillsResult with
      | .error e => (s1, .error ("Failed to load skills: " ++ e))
      | .ok newSkills =>
        let s2 := { s1 with skills := newSkills }
        match db.instructionsResult with
        | .error e => (s2, .error ("Failed to load instructions: " ++ e))
        | .ok newInstructions => ({ s2 with instructions := newInstructions }, .ok ())

-- ============================================================================
-- JSON-RPC 2.0 types (mcp_server.rs lines 15-41)
-- ============================================================================

/-- `JsonRpcRequest` from mcp_server.rs. -/
structure JsonRpcRequest where
  jsonrpc : String
  id : Option Json
  method : String
  params : Option Json

/-- `JsonRpcError` from mcp_server.rs. -/
structure JsonRpcError where
  code : Int
  message : String
  data : Option Json

/-- `JsonRpcResponse` from mcp_server.rs.  `skip_serializing_if` on the
optional fields means a `none` field is absent from the emitted line, so the
structure faithfully records which of `result`/`error` the line carries. -/
structure JsonRpcResponse where
  jsonrpc : String
  id : Option Json
  result : Option Json
  error : Option JsonRpcError

-- ============================================================================
-- serde_json serialization model
-- ============================================================================

/-- Lowercase hexadecimal digit, as used by serde_json string escapes. -/
def hexDigitChar (n : Nat) : Char :=
  if n < 10 then Char.ofNat (48 + n) else Char.ofNat (87 + n)

/-- serde_json string escaping: quote, backslash, and control characters
below 0x20 (with the usual short forms for backspace, tab, newline, form
feed and carriage return, `\u00xx` otherwise). -/
def escapeJsonChar (c : Char) : String :=
  if c = Char.ofNat 34 then "\\\""
  else if c = Char.ofNat 92 then "\\\\"
  else if c = Char.ofNat 8 then "\\b"
  else if c = Char.ofNat 9 then "\\t"
  else if c = Char.ofNat 10 then "\\n"
  else if c = Char.ofNat 12 then "\\f"
  else if c = Char.ofNat 13 then "\\r"
  else if c.toNat < 32 then
    "\\u00" ++ String.singleton (hexDigitChar (c.toNat / 16)) ++
      String.singleton (hexDigitChar (c.toNat % 16))
  else String.singleton c

/-- A JSON string literal: quotes around the escaped contents. -/
def jsonQuote (s : String) : String :=
  "\"" ++ String.join (s.data.map escapeJsonChar) ++ "\""

/-- Decimal rendering of a JSON float.  serde_json prints floats with the ryu
shortest-round-trip algorithm; that rendering is modelled here by the Lean
`Float` printing, a deliberate modelling boundary — no claim in this
development depends on the bytes of a float. -/
def floatJsonRepr (x : Float) : String := toString x

/-- Two spaces of indentation per level, as in the serde_json pretty formatter. -/
def indentStr (level : Nat) : String := String.join (List.replicate level "  ")

mutual

/-- Model of `serde_json::to_string_pretty` on a `Json` value: two-space
indentation, `", "`-free line breaks between entries, `{}`/`[]` for empty
containers. -/
def Json.pretty (level : Nat) : Json → String
  | .null => "null"
  | .bool b => if b then "true" else "false"
  | .int n => toString n
  | .float x => floatJsonRepr x
  | .str s => jsonQuote s
  | .arr [] => "[]"
  | .arr (e :: es) =>
    "[\n" ++ String.intercalate ",\n" (prettyElems (level + 1) (e :: es)) ++
      "\n" ++ indentStr level ++ "]"
  | .obj [] => "\x7b\x7d"
  | .obj (f :: fs) =>
    "\x7b\n" ++ String.intercalate ",\n" (prettyMembers (level + 1) (f :: fs)) ++
      "\n" ++ indentStr level ++ "\x7d"

/-- The pretty-printed lines of the elements of an array. -/
def prettyElems (level : Nat) : List Json → List String
  | [] => []
  | e :: es => (indentStr level ++ Json.pretty level e) :: prettyElems level es

/-- The pretty-printed lines of the members of an object. -/
def prettyMembers (level : Nat) : List (String × Json) → List String
  | [] => []
  | (k, v) :: fs =>
    (indentStr level ++ jsonQuote k ++ ": " ++ Json.pretty level v) :: prettyMembers level fs

end

/-- Serialization of `Personality` (serde derive: declaration field order). -/
def personalityToJson (p : Personality) : Json :=
  .obj [("tone", .str p.tone), ("verbosity", .str p.verbosity),
        ("creativity", .float p.creativity), ("formality", .float p.formality),
        ("traits", .arr (p.traits.map Json.str))]

/-- Serialization of `Agent` (serde derive: declaration field order;
`DateTime<Utc>` renders as its RFC 3339 string, `Option` as the value or
`null`). -/
def agentToJson (a : Agent) : Json :=
  .obj [("id", .str a.id), ("name", .str a.name), ("description", .str a.description),
        ("avatar_emoji", .str a.avatar_emoji),
        ("personality", personalityToJson a.personality),
        ("system_prompt", .str a.system_prompt),
        ("skills", .arr (a.skills.map Json.str)),
        ("instructions", .arr (a.instructions.map Json.str)),
        ("tags", .arr (a.tags.map Json.str)),
        ("created_at", .str a.created_at), ("updated_at", .str a.updated_at),
        ("usage_count", .int a.usage_count),
        ("last_used_at", match a.last_used_at with | some t => .str t | none => .null)]

/-- Serialization of `SkillType` (`rename_all = "snake_case"`). -/
def skillTypeToJson : SkillType → Json
  | .Prompt => .str "prompt"
  | .Tool => .str "tool"
  | .Workflow => .str "workflow"

/-- Serialization of `ToolParameter`. -/
def toolParameterToJson (p : ToolParameter) : Json :=
  .obj [("name", .str p.name), ("description", .str p.description),
        ("param_type", .str p.param_type), ("required", .bool p.required),
        ("default", match p.default with | some v => v | none => .null)]

/-- Serialization of `WorkflowStep`. -/
def workflowStepToJson (w : WorkflowStep) : Json :=
  .obj [("id", .str w.id), ("name", .str w.name), ("action", .str w.action),
        ("inputs", w.inputs), ("outputs", .arr (w.outputs.map Json.str))]

/-- Serialization of `SkillDefinition` (internally tagged with `type`,
`rename_all = "snake_case"`). -/
def skillDefinitionToJson : SkillDefinition → Json
  | .Prompt template => .obj [("type", .str "prompt"), ("template", .str template)]
  | .Tool parameters handler =>
    .obj [("type", .str "tool"), ("parameters", .arr (parameters.map toolParameterToJson)),
          ("handler", .str handler)]
  | .Workflow steps =>
    .obj [("type", .str "workflow"), ("steps", .arr (steps.map workflowStepToJson))]

/-- Serialization of `Skill` (declaration field order). -/
def skillToJson (sk : Skill) : Json :=
  .obj [("id", .str sk.id), ("name", .str sk.name), ("description", .str sk.description),
        ("icon_emoji", .str sk.icon_emoji), ("skill_type", skillTypeToJson sk.skill_type),
        ("definition", skillDefinitionToJson sk.definition), ("enabled", .bool sk.enabled),
        ("created_at", .str sk.created_at), ("updated_at", .str sk.updated_at)]

/-- `serde_json::to_string_pretty(agent)`. -/
def prettyAgent (a : Agent) : String := Json.pretty 0 (agentToJson a)

/-- `serde_json::to_string_pretty(skill)`. -/
def prettySkill (sk : Skill) : String := Json.pretty 0 (skillToJson sk)

-- ============================================================================
-- The two "all enabled instructions" rendering paths
-- ============================================================================

/-- Insert an element into a list already sorted by priority descending,
placing it before the first strictly-smaller-priority element, so an element
inserted from the left stays ahead of equal priorities. -/
def insertByPriorityDesc (x : Instruction) : List Instruction → List Instruction
  | [] => [x]
  | y :: ys =>
    if y.priority ≤ x.priority then x :: y :: ys else y :: insertByPriorityDesc x ys

/-- Stable sort by priority descending.  Models the Rust
`sorted.sort_by(|a, b| b.priority.cmp(&a.priority))` in commands.rs
(`Vec::sort_by` is a stable sort, and a stable sort by a fixed comparator is
extensionally unique, so this insertion sort renders the same list). -/
def sortByPriorityDesc : List Instruction → List Instruction
  | [] => []
  | x :: xs => insertByPriorityDesc x (sortByPriorityDesc xs)

/-- Core of the `get_all_enabled_instructions` Tauri command
(commands.rs lines 478-496), taking the instruction list the command fetches
from the database as its argument: filter enabled, stable-sort by priority
descending, render `## name\ncontent` blocks joined by a horizontal rule. -/
def get_all_enabled_instructions (instructions : List Instruction) : String :=
  let sorted := sortByPriorityDesc (instructions.filter fun i => i.enabled)
  String.intercalate "\n\n---\n\n"
    (sorted.map fun i => "## " ++ i.name ++ "\n" ++ i.content)

/-- One block of `McpServer::get_all_instructions_markdown`
(mcp_server.rs lines 700-711). -/
def renderMarkdownInstruction (i : Instruction) : String :=
  "## " ++ i.icon_emoji ++ " " ++ i.name ++ " (Priority: " ++ toString i.priority ++ ")\n" ++
    "*Category: " ++ category_to_string i.category ++ "*\n\n" ++
    i.content ++ "\n\n---\n\n"

/-- `McpServer::get_all_instructions_markdown` (mcp_server.rs lines 691-714),
the rendering used by `resources/read` of `prompt-forge://instructions/all`:
the enabled instructions in snapshot order, each block followed by a
horizontal rule. -/
def get_all_instructions_markdown (s : McpServer) : String :=
  let enabled := s.instructions.filter fun i => i.enabled
  if enabled.isEmpty then "No instructions enabled."
  else "# Prompt Forge Instructions\n\n" ++ String.join (enabled.map renderMarkdownInstruction)

/-- Follows the spec words for claim C1: the same block rendering as
`get_all_instructions_markdown`, but over the enabled instructions sorted by
priority descending with a stable tie-break on original order.  Written from
the spec, to be compared with the source-derived definition. -/
def allInstructionsMarkdownSpec (s : McpServer) : String :=
  let enabled := sortByPriorityDesc (s.instructions.filter fun i => i.enabled)
  if enabled.isEmpty then "No instructions enabled."
  else "# Prompt Forge Instructions\n\n" ++ String.join (enabled.map renderMarkdownInstruction)

-- ============================================================================
-- Tool implementations (mcp_server.rs lines 475-689)
-- ============================================================================

/-- Model of Rust `str::to_lowercase`: character-wise lowercasing (the
multi-character Unicode special cases of the Rust function are outside the
scope of this embedding; every identifier the claims touch is ASCII). -/
def toLowercase (s : String) : String := ⟨s.data.map Char.toLower⟩

/-- Model of Rust `str::replace` with a one-character pattern: every
occurrence of the character replaced by the given string. -/
def replaceChar (s : String) (c : Char) (r : String) : String :=
  ⟨s.data.flatMap fun ch => if ch = c then r.data else [ch]⟩

/-- The id-then-case-insensitive-name agent lookup shared by
`tool_get_agent` and `tool_apply_agent` (mcp_server.rs lines 482-490 and
600-608). -/
def find_agent (agents : List Agent) (agent_id : String) : Option Agent :=
  match agents.find? fun a => a.id == agent_id with
  | some a => some a
  | none =>
    let name_lower := toLowercase agent_id
    agents.find? fun a => toLowercase a.name == name_lower

/-- `McpServer::tool_get_agent` (mcp_server.rs lines 475-493). -/
def tool_get_agent (s : McpServer) (args : Json) : Except String String :=
  match (args.get? "agent_id").bind Json.asStr? with
  | none => .error "Missing agent_id"
  | some agent_id =>
    match find_agent s.agents agent_id with
    | none =>
      .error ("Agent not found: \x27" ++ agent_id ++
        "\x27. Use list_agents to see available agents.")
    | some agent => .ok (prettyAgent agent)

/-- The summary object `tool_list_agents` builds for each agent with the
`json!` macro (mcp_server.rs lines 499-506). -/
def agentSummaryJson (a : Agent) : Json :=
  .obj [("id", .str a.id), ("name", .str a.name),
        ("description", .str a.description), ("emoji", .str a.avatar_emoji)]

/-- `McpServer::tool_list_agents` (mcp_server.rs lines 495-510). -/
def tool_list_agents (s : McpServer) : Except String String :=
  .ok (Json.pretty 0 (.arr (s.agents.map agentSummaryJson)))

/-- One block of `tool_get_instructions` (mcp_server.rs lines 533-544). -/
def renderGetInstruction (i : Instruction) : String :=
  "## " ++ i.icon_emoji ++ " " ++ i.name ++ " (Priority: " ++ toString i.priority ++ ")\n" ++
    "Category: " ++ category_to_string i.category ++ "\n\n" ++
    i.content ++ "\n\n---\n\n"

/-- `McpServer::tool_get_instructions` (mcp_server.rs lines 512-547):
enabled instructions, optionally filtered by the category argument compared
case-insensitively against the canonical category token, in snapshot order;
an empty result is the literal success "No instructions found.". -/
def tool_get_instructions (s : McpServer) (args : Json) : Except String String :=
  let category_filter := (args.get? "category").bind Json.asStr?
  let filtered := (s.instructions.filter fun i => i.enabled).filter fun i =>
    match category_filter with
    | some cat => category_to_string i.category == toLowercase cat
    | none => true
  if filtered.isEmpty then .ok "No instructions found."
  else .ok (String.join (filtered.map renderGetInstruction))

/-- The space/underscore-to-hyphen lowercase normalization `tool_get_skill`
applies to both the query and each skill name (mcp_server.rs lines 561-563). -/
def normalizeSkillName (s : String) : String :=
  replaceChar (replaceChar (toLowercase s) ' ' "-") '_' "-"

/-- The id-then-normalized-name skill lookup of `tool_get_skill`
(mcp_server.rs lines 556-565). -/
def find_skill (skills : List Skill) (skill_id : String) : Option Skill :=
  match skills.find? fun sk => sk.id == skill_id with
  | some sk => some sk
  | none =>
    let name_lower := normalizeSkillName skill_id
    skills.find? fun sk => normalizeSkillName sk.name == name_lower

/-- `McpServer::tool_get_skill` (mcp_server.rs lines 549-569). -/
def tool_get_skill (s : McpServer) (args : Json) : Except String String :=
  match (args.get? "skill_id").bind Json.asStr? with
  | none => .error "Missing skill_id"
  | some skill_id =>
    match find_skill s.skills skill_id with
    | none =>
      .error ("Skill not found: \x27" ++ skill_id ++
        "\x27. Use list_skills to see available skills.")
    | some sk => .ok (prettySkill sk)

/-- The summary object `tool_list_skills` builds for each skill
(mcp_server.rs lines 579-587). -/
def skillSummaryJson (sk : Skill) : Json :=
  .obj [("id", .str sk.id), ("name", .str sk.name),
        ("description", .str sk.description), ("emoji", .str sk.icon_emoji),
        ("enabled", .bool sk.enabled)]

/-- `McpServer::tool_list_skills` (mcp_server.rs lines 571-591). -/
def tool_list_skills (s : McpServer) : Except String String :=
  if s.skills.isEmpty then .ok "No skills configured."
  else .ok (Json.pretty 0 (.arr (s.skills.map skillSummaryJson)))

-- ============================================================================
-- apply_agent composition (mcp_server.rs lines 593-689)
-- ============================================================================

/-- The skills rendered in the Attached Skills section: for each id in the
refs in the `skills` field of the agent, in listed order, the first enabled skill with that id,
dangling or disabled refs silently skipped (mcp_server.rs lines 637-645). -/
def attachedSkills (refs : List String) (skills : List Skill) : List Skill :=
  refs.filterMap fun skill_id => skills.find? fun sk => sk.id == skill_id && sk.enabled

/-- One Attached Skills block: name line, plus the template body when and
only when the definition variant is Prompt (mcp_server.rs lines 639-643). -/
def renderAttachedSkill (sk : Skill) : String :=
  "### " ++ sk.icon_emoji ++ " " ++ sk.name ++ "\n" ++
    match sk.definition with
    | .Prompt template => template ++ "\n\n"
    | _ => ""

/-- The instructions rendered in the Instructions section: for each id in the
refs in the `instructions` field of the agent, in listed order, the first enabled instruction
with that id, dangling or disabled refs silently skipped
(mcp_server.rs lines 651-664). -/
def attachedInstructions (refs : List String) (instructions : List Instruction) :
    List Instruction :=
  refs.filterMap fun instruction_id =>
    instructions.find? fun i => i.id == instruction_id && i.enabled

/-- One Instructions block (mcp_server.rs lines 657-662). -/
def renderAttachedInstruction (i : Instruction) : String :=
  "### " ++ i.icon_emoji ++ " " ++ i.name ++ "\n" ++ i.content ++ "\n\n"

/-- The instructions rendered in the Global Instructions section: the enabled
instructions whose id is not among the refs of the agent, in snapshot order
(mcp_server.rs lines 668-672). -/
def globalInstructions (refs : List String) (instructions : List Instruction) :
    List Instruction :=
  instructions.filter fun i => i.enabled && !(refs.contains i.id)

/-- One Global Instructions block (mcp_server.rs lines 677-684). -/
def renderGlobalInstruction (i : Instruction) : String :=
  "### " ++ i.icon_emoji ++ " " ++ i.name ++ " (" ++ category_to_string i.category ++
    ")\n" ++ i.content ++ "\n\n"

/-- The composed prompt `tool_apply_agent` builds for a resolved agent
(mcp_server.rs lines 610-688): header, optional traits line, verbatim system
prompt, then the three sections, each section header emitted under the same
emptiness condition as the source (`skills`/`instructions` refs lists for the
attached sections, the resolved global list for the global section). -/
def applyAgentPrompt (s : McpServer) (agent : Agent) : String :=
  let header :=
    "# Agent Configuration\n\n" ++
    "**Agent:** " ++ agent.avatar_emoji ++ " " ++ agent.name ++ "\n\n" ++
    "**Tone:** " ++ agent.personality.tone ++ " | **Verbosity:** " ++
      agent.personality.verbosity ++ "\n\n"
  let traitsLine :=
    if agent.personality.traits.isEmpty then ""
    else "**Traits:** " ++ String.intercalate ", " agent.personality.traits ++ "\n\n"
  let systemPromptSection := "## System Prompt\n\n" ++ agent.system_prompt ++ "\n\n"
  let skillsSection :=
    if agent.skills.isEmpty then ""
    else "## Attached Skills\n\n" ++
      String.join ((attachedSkills agent.skills s.skills).map renderAttachedSkill)
  let instructionsSection :=
    if agent.instructions.isEmpty then ""
    else "## Instructions\n\n" ++
      String.join ((attachedInstructions agent.instructions s.instructions).map
        renderAttachedInstruction)
  let globals := globalInstructions agent.instructions s.instructions
  let globalSection :=
    if globals.isEmpty then ""
    else "## Global Instructions\n\n" ++ String.join (globals.map renderGlobalInstruction)
  header ++ traitsLine ++ systemPromptSection ++ skillsSection ++ instructionsSection ++
    globalSection

/-- `McpServer::tool_apply_agent` (mcp_server.rs lines 593-689). -/
def tool_apply_agent (s : McpServer) (args : Json) : Except String String :=
  match (args.get? "agent_id").bind Json.asStr? with
  | none => .error "Missing agent_id"
  | some agent_id =>
    match find_agent s.agents agent_id with
    | none =>
      .error ("Agent not found: \x27" ++ agent_id ++
        "\x27. Use list_agents to see available agents.")
    | some agent => .ok (applyAgentPrompt s agent)

-- ============================================================================
-- Protocol handlers (mcp_server.rs lines 258-469)
-- ============================================================================

/-- The fixed `initialize` result (mcp_server.rs lines 258-273). -/
def initResultJson : Json :=
  .obj [("protocolVersion", .str "2024-11-05"),
        ("capabilities",
          .obj [("tools", .obj [("listChanged", .bool false)]),
                ("resources", .obj [("listChanged", .bool false), ("subscribe", .bool false)])]),
        ("serverInfo", .obj [("name", .str "prompt-forge"), ("version", .str "0.1.0")])]

/-- One `Tool` descriptor as serialized for `tools/list`. -/
def toolDescriptor (name description : String) (schema : Json) : Json :=
  .obj [("name", .str name), ("description", .str description), ("inputSchema", schema)]

/-- The fixed `tools/list` result: the six registered tools with their input
schemas (mcp_server.rs lines 275-351). -/
def toolsListJson : Json :=
  .obj [("tools", .arr [
    toolDescriptor "get_agent"
      "Get a Prompt Forge agent\x27s full configuration including system prompt, personality, and attached skills/instructions"
      (.obj [("type", .str "object"),
             ("properties", .obj [("agent_id",
               .obj [("type", .str "string"),
                     ("description", .str "The ID of the agent to retrieve. Use \x27default\x27 for the default agent.")])]),
             ("required", .arr [.str "agent_id"])]),
    toolDescriptor "list_agents" "List all available Prompt Forge agents"
      (.obj [("type", .str "object"), ("properties", .obj [])]),
    toolDescriptor "get_instructions" "Get all enabled instructions/guidelines from Prompt Forge"
      (.obj [("type", .str "object"),
             ("properties", .obj [("category",
               .obj [("type", .str "string"),
                     ("description", .str "Optional category filter: general, code_style, communication, workflow, security, testing, documentation, custom")])])]),
    toolDescriptor "get_skill"
      "Get a specific skill\x27s full configuration and prompt template. Use the skill name (e.g., \x27code-review\x27, \x27frontend-design\x27) or ID."
      (.obj [("type", .str "object"),
             ("properties", .obj [("skill_id",
               .obj [("type", .str "string"),
                     ("description", .str "The ID or name of the skill to retrieve (e.g., \x27code-review\x27, \x27explain-code\x27, \x27frontend-design\x27)")])]),
             ("required", .arr [.str "skill_id"])]),
    toolDescriptor "list_skills" "List all available skills"
      (.obj [("type", .str "object"), ("properties", .obj [])]),
    toolDescriptor "apply_agent"
      "Apply an agent\x27s configuration - returns the full system prompt with all attached skills and instructions combined"
      (.obj [("type", .str "object"),
             ("properties", .obj [("agent_id",
               .obj [("type", .str "string"),
                     ("description", .str "The ID of the agent to apply")])]),
             ("required", .arr [.str "agent_id"])])])]

/-- The serialized `ToolResult` envelope (mcp_server.rs lines 98-110 and
381-396): one text content block; `isError` is present exactly when set,
because of `skip_serializing_if`. -/
def toolResultJson (text : String) (isError : Option Bool) : Json :=
  .obj ([("content", .arr [.obj [("type", .str "text"), ("text", .str text)]])] ++
    match isError with
    | some b => [("isError", .bool b)]
    | none => [])

/-- `McpServer::handle_tools_call` (mcp_server.rs lines 353-397): absent
params and an absent or non-string tool name are protocol-level Invalid
Params; a tool body outcome is always wrapped in a success envelope, the
error side flagged `isError = true` (so an unknown tool name is a tool-level
failure, not a protocol error). -/
def handle_tools_call (s : McpServer) (params : Option Json) : Except JsonRpcError Json :=
  match params with
  | none => .error ⟨-32602, "Invalid params", none⟩
  | some p =>
    match (p.get? "name").bind Json.asStr? with
    | none => .error ⟨-32602, "Missing tool name", none⟩
    | some tool_name =>
      let arguments := ((p.get? "arguments").getD (Json.obj []))
      let result : Except String String :=
        match tool_name with
        | "get_agent" => tool_get_agent s arguments
        | "list_agents" => tool_list_agents s
        | "get_instructions" => tool_get_instructions s arguments
        | "get_skill" => tool_get_skill s arguments
        | "list_skills" => tool_list_skills s
        | "apply_agent" => tool_apply_agent s arguments
        | _ => .error ("Unknown tool: " ++ tool_name)
      match result with
      | .ok text => .ok (toolResultJson text none)
      | .error e => .ok (toolResultJson e (some true))

/-- One `Resource` descriptor as serialized for `resources/list`. -/
def resourceDescriptor (uri name description mimeType : String) : Json :=
  .obj [("uri", .str uri), ("name", .str name), ("description", .str description),
        ("mimeType", .str mimeType)]

/-- `McpServer::handle_resources_list` (mcp_server.rs lines 399-421). -/
def handle_resources_list (s : McpServer) : Except JsonRpcError Json :=
  .ok (.obj [("resources", .arr
    ((s.agents.map fun a =>
        resourceDescriptor ("prompt-forge://agents/" ++ a.id) a.name a.description
          "application/json") ++
      [resourceDescriptor "prompt-forge://instructions/all" "All Instructions"
        "All enabled instructions combined" "text/markdown"]))])

/-- One `ResourceContent` as serialized for `resources/read`. -/
def resourceContentJson (uri mimeType text : String) : Json :=
  .obj [("uri", .str uri), ("mimeType", .str mimeType), ("text", .str text)]

/-- `McpServer::handle_resources_read` (mcp_server.rs lines 423-469). -/
def handle_resources_read (s : McpServer) (params : Option Json) : Except JsonRpcError Json :=
  match params with
  | none => .error ⟨-32602, "Invalid params", none⟩
  | some p =>
    match (p.get? "uri").bind Json.asStr? with
    | none => .error ⟨-32602, "Missing uri", none⟩
    | some uri =>
      if uri == "prompt-forge://instructions/all" then
        .ok (.obj [("contents",
          .arr [resourceContentJson uri "text/markdown" (get_all_instructions_markdown s)])])
      else if uri.startsWith "prompt-forge://agents/" then
        let agent_id := uri.drop "prompt-forge://agents/".length
        match s.agents.find? fun a => a.id == agent_id with
        | some agent =>
          .ok (.obj [("contents",
            .arr [resourceContentJson uri "application/json"
              (Json.pretty 0 (agentToJson agent))])])
        | none => .error ⟨-32602, "Resource not found: " ++ uri, none⟩
      else .error ⟨-32602, "Resource not found: " ++ uri, none⟩

-- ============================================================================
-- Dispatch and transport step (mcp_server.rs lines 179-256)
-- ============================================================================

/-- The method dispatch inside `McpServer::handle_request`
(mcp_server.rs lines 222-240), returning the possibly-updated server state
(only `notifications/reload` mutates it) and the handler outcome. -/
def dispatch (s : McpServer) (db : DbLoadResult) (req : JsonRpcRequest) :
    McpServer × Except JsonRpcError Json :=
  match req.method with
  | "initialize" => (s, .ok initResultJson)
  | "initialized" => (s, .ok (.obj []))
  | "tools/list" => (s, .ok toolsListJson)
  | "tools/call" => (s, handle_tools_call s req.params)
  | "resources/list" => (s, handle_resources_list s)
  | "resources/read" => (s, handle_resources_read s req.params)
  | "ping" => (s, .ok (.obj []))
  | "notifications/reload" =>
    ((load_data s db).1, .ok (.obj [("reloaded", .bool true)]))
  | m => (s, .error ⟨-32601, "Method not found: " ++ m, none⟩)

/-- `McpServer::handle_request` (mcp_server.rs lines 219-256): dispatch, then
wrap the outcome in a response that echoes the request id and carries
`result` on success and `error` on failure. -/
def handle_request (s : McpServer) (db : DbLoadResult) (req : JsonRpcRequest) :
    McpServer × JsonRpcResponse :=
  match dispatch s db req with
  | (s2, .ok r) => (s2, ⟨"2.0", req.id, some r, none⟩)
  | (s2, .error e) => (s2, ⟨"2.0", req.id, none, some e⟩)

/-- One iteration of the `McpServer::run` read loop for a non-blank line
(mcp_server.rs lines 186-213), taking the serde decode outcome of the line:
a decoded message always runs `handle_request`, but its response is written
only when the message carried an id; a decode failure emits one Parse Error
response with a null id. -/
def processMessage (s : McpServer) (db : DbLoadResult)
    (decoded : Except String JsonRpcRequest) : McpServer × List JsonRpcResponse :=
  match decoded with
  | .ok request =>
    let is_notification := request.id.isNone
    let (s2, response) := handle_request s db request
    if is_notification then (s2, []) else (s2, [response])
  | .error e =>
    (s, [⟨"2.0", none, none, some ⟨-32700, "Parse error: " ++ e, none⟩⟩])

-- ============================================================================
-- Concrete sample data for witnesses and counterexamples
-- ============================================================================

/-- A minimal personality for sample agents. -/
def mkPersonality : Personality := ⟨"friendly", "balanced", 0.5, 0.5, []⟩

/-- A sample agent with the given identifiers and refs. -/
def mkAgent (id name : String) (skills instructions : List String) : Agent :=
  ⟨id, name, "", "(a)", mkPersonality, "sys", skills, instructions, [],
    "2024-01-01T00:00:00Z", "2024-01-01T00:00:00Z", 0, none⟩

/-- A sample instruction. -/
def mkInstruction (id name : String) (cat : InstructionCategory) (content : String)
    (priority : Nat) (enabled : Bool) : Instruction :=
  ⟨id, name, "", "(i)", cat, content, priority, [], enabled, "t0", "t0"⟩

/-- A sample prompt skill. -/
def mkSkill (id name : String) (template : String) (enabled : Bool) : Skill :=
  ⟨id, name, "", "(s)", .Prompt, .Prompt template, enabled, "t0", "t0"⟩

-- ============================================================================
-- Claim theorems
-- ============================================================================

/-- Claim C3: a decoded message without an id is a notification: the per-line
step still runs `handle_request` (so its side effects, such as the reload of
the snapshot, land in the resulting server state), but it emits no output,
whatever the handler outcome. -/
theorem C3_notification_runs_but_no_output (s : McpServer) (db : DbLoadResult)
    (req : JsonRpcRequest) (h : req.id = none) :
    (processMessage s db (.ok req)).2 = [] ∧
    (processMessage s db (.ok req)).1 = (handle_request s db req).1 := by
  cases hh : handle_request s db req with
  | mk s2 resp => simp [processMessage, hh, h]

/-- Witness for C3: a `notifications/reload` notification produces no output
and its state change is exactly the one `handle_request` makes. -/
theorem C3_witness :
    (processMessage ⟨"db", [], [], []⟩ ⟨.ok (), .ok [], .ok [], .ok []⟩
        (.ok ⟨"2.0", none, "notifications/reload", none⟩)).2 = [] ∧
    (processMessage ⟨"db", [], [], []⟩ ⟨.ok (), .ok [], .ok [], .ok []⟩
        (.ok ⟨"2.0", none, "notifications/reload", none⟩)).1 =
      (handle_request ⟨"db", [], [], []⟩ ⟨.ok (), .ok [], .ok [], .ok []⟩
        ⟨"2.0", none, "notifications/reload", none⟩).1 :=
  C3_notification_runs_but_no_output _ _ _ rfl

/-- Claim C4: a decoded message carrying an id is a request: the per-line
step emits exactly one response, echoing the request id and carrying exactly
one of `result` and `error`, whatever the method. -/
theorem C4_request_exactly_one_response (s : McpServer) (db : DbLoadResult)
    (req : JsonRpcRequest) (v : Json) (h : req.id = some v) :
    ∃ resp : JsonRpcResponse,
      (processMessage s db (.ok req)).2 = [resp] ∧ resp.id = some v ∧
      (((∃ r, resp.result = some r) ∧ resp.error = none) ∨
        (resp.result = none ∧ ∃ e, resp.error = some e)) := by
  cases hd : dispatch s db req with
  | mk s2 res =>
    cases res with
    | ok r =>
      refine ⟨⟨"2.0", req.id, some r, none⟩, ?_, by simp [h], Or.inl ⟨⟨r, rfl⟩, rfl⟩⟩
      simp [processMessage, handle_request, hd, h]
    | error e =>
      refine ⟨⟨"2.0", req.id, none, some e⟩, ?_, by simp [h], Or.inr ⟨rfl, e, rfl⟩⟩
      simp [processMessage, handle_request, hd, h]

/-- Witness for C4: a `ping` request with id "1" gets exactly one response
with that id and exactly one of `result`/`error`. -/
theorem C4_witness :
    ∃ resp : JsonRpcResponse,
      (processMessage ⟨"db", [], [], []⟩ ⟨.ok (), .ok [], .ok [], .ok []⟩
          (.ok ⟨"2.0", some (.str "1"), "ping", none⟩)).2 = [resp] ∧
      resp.id = some (.str "1") ∧
      (((∃ r, resp.result = some r) ∧ resp.error = none) ∨
        (resp.result = none ∧ ∃ e, resp.error = some e)) :=
  C4_request_exactly_one_response _ _ _ (.str "1") rfl

/-- Claim C10: `notifications/reload` sent with an id is answered with the
fixed success result `{"reloaded": true}` whatever the load outcome: the
`load_data` error is discarded (`let _ = ...`) and never reaches the
response, while the state still takes whatever `load_data` produced. -/
theorem C10_reload_request_discards_load_error (s : McpServer) (db : DbLoadResult)
    (req : JsonRpcRequest) (v : Json)
    (hm : req.method = "notifications/reload") (hid : req.id = some v) :
    (handle_request s db req).2 =
      ⟨"2.0", some v, some (.obj [("reloaded", .bool true)]), none⟩ ∧
    (handle_request s db req).1 = (load_data s db).1 := by
  obtain ⟨jr, idf, m, pr⟩ := req
  simp only at hm hid
  subst hm hid
  exact ⟨rfl, rfl⟩

/-- Witness for C10: a reload request against a database whose open fails is
still answered `{"reloaded": true}` and leaves the state as the failed load
left it. -/
theorem C10_witness :
    (handle_request ⟨"db", [], [], []⟩ ⟨.error "io fail", .ok [], .ok [], .ok []⟩
        ⟨"2.0", some (.int 7), "notifications/reload", none⟩).2 =
      ⟨"2.0", some (.int 7), some (.obj [("reloaded", .bool true)]), none⟩ ∧
    (handle_request ⟨"db", [], [], []⟩ ⟨.error "io fail", .ok [], .ok [], .ok []⟩
        ⟨"2.0", some (.int 7), "notifications/reload", none⟩).1 =
      (load_data ⟨"db", [], [], []⟩ ⟨.error "io fail", .ok [], .ok [], .ok []⟩).1 :=
  C10_reload_request_discards_load_error _ _ _ (.int 7) rfl rfl

/-- Claim C9: the apply_agent composition is a pure function of the tool
argument and the snapshot collections: any two server states agreeing on
agents, skills and instructions produce identical composed text for the same
argument, so repeated calls against an unchanged snapshot are byte-identical
(the composition reads no clock, counter or other ambient state). -/
theorem C9_apply_agent_deterministic (s1 s2 : McpServer) (args : Json)
    (ha : s1.agents = s2.agents) (hs : s1.skills = s2.skills)
    (hi : s1.instructions = s2.instructions) :
    tool_apply_agent s1 args = tool_apply_agent s2 args := by
  obtain ⟨d1, a1, k1, i1⟩ := s1
  obtain ⟨d2, a2, k2, i2⟩ := s2
  simp only at ha hs hi
  subst ha hs hi
  rfl

/-- Witness for C9: two states differing only in the database path compose
identically. -/
theorem C9_witness :
    tool_apply_agent ⟨"db-a", [mkAgent "a1" "Alpha" [] []], [], []⟩
        (.obj [("agent_id", .str "a1")]) =
      tool_apply_agent ⟨"db-b", [mkAgent "a1" "Alpha" [] []], [], []⟩
        (.obj [("agent_id", .str "a1")]) :=
  C9_apply_agent_deterministic _ _ _ rfl rfl rfl

-- Sample records for claims C1 and C2.

/-- The agent held before the failing reload of claim C2. -/
def c2OldAgent : Agent := mkAgent "old-agent" "Old" [] []

/-- The agent the failing reload reads before the skills query fails. -/
def c2NewAgent : Agent := mkAgent "new-agent" "New" [] []

/-- The pre-reload state of claim C2: one agent, one skill, one instruction. -/
def c2State : McpServer :=
  ⟨"db", [c2OldAgent], [mkSkill "old-skill" "OldSkill" "t" true],
    [mkInstruction "old-instr" "OldInstr" .General "c" 5 true]⟩

/-- A load whose open and agents query succeed and whose skills query fails. -/
def c2Db : DbLoadResult := ⟨.ok (), .ok [c2NewAgent], .error "disk error", .ok []⟩

/-- Counterexample to claim C2: a load that fails at the skills query leaves
the server holding the newly loaded agents together with the previous skills
and instructions — a partial mix, so the snapshot is not retained as a
whole. -/
theorem C2_counterexample :
    (load_data c2State c2Db).2 = .error "Failed to load skills: disk error" ∧
    (load_data c2State c2Db).1.agents.map Agent.id ≠ c2State.agents.map Agent.id ∧
    (load_data c2State c2Db).1.skills.map Skill.id = c2State.skills.map Skill.id ∧
    (load_data c2State c2Db).1.instructions.map Instruction.id =
      c2State.instructions.map Instruction.id :=
  ⟨rfl, by decide, rfl, rfl⟩

/-- Claim C2 as amended: `load_data` assigns the three collections one at a
time with an early return on error, so only a failure of the database open
or of the agents query leaves the snapshot fully unchanged; a failure of the
skills query keeps the newly loaded agents with the previous skills and
instructions, and a failure of the instructions query keeps the new agents
and skills with the previous instructions. -/
theorem C2_load_failure_granularity (s : McpServer) (db : DbLoadResult) :
    (∀ e, db.openResult = .error e → (load_data s db).1 = s) ∧
    (∀ e, db.agentsResult = .error e → (load_data s db).1 = s) ∧
    (∀ e newAgents, db.openResult = .ok () → db.agentsResult = .ok newAgents →
      db.skillsResult = .error e →
      (load_data s db).1 = { s with agents := newAgents } ∧
      (load_data s db).2 = .error ("Failed to load skills: " ++ e)) ∧
    (∀ e newAgents newSkills, db.openResult = .ok () → db.agentsResult = .ok newAgents →
      db.skillsResult = .ok newSkills → db.instructionsResult = .error e →
      (load_data s db).1 = { s with agents := newAgents, skills := newSkills } ∧
      (load_data s db).2 = .error ("Failed to load instructions: " ++ e)) := by
  refine ⟨?_, ?_, ?_, ?_⟩
  · intro e h
    simp [load_data, h]
  · intro e h
    cases ho : db.openResult with
    | error e2 => simp [load_data, ho]
    | ok u => cases u; simp [load_data, ho, h]
  · intro e newAgents ho ha hk
    constructor <;> simp [load_data, ho, ha, hk]
  · intro e newAgents newSkills ho ha hk hi
    constructor <;> simp [load_data, ho, ha, hk, hi]

/-- Witness for C2 (amended): the concrete failing load of the
counterexample lands exactly on the partial state the amended claim
describes. -/
theorem C2_witness :
    (load_data c2State c2Db).1 = { c2State with agents := [c2NewAgent] } ∧
    (load_data c2State c2Db).2 = .error ("Failed to load skills: " ++ "disk error") :=
  (C2_load_failure_granularity c2State c2Db).2.2.1 "disk error" [c2NewAgent] rfl rfl rfl

/-- The lower-priority instruction of claim C1, inserted first. -/
def c1Instr3 : Instruction := mkInstruction "i-low" "Low" .General "low content" 3 true

/-- The higher-priority instruction of claim C1, inserted second. -/
def c1Instr9 : Instruction := mkInstruction "i-high" "High" .General "high content" 9 true

/-- The claim C1 snapshot: enabled instructions inserted in order
[priority 3, priority 9]. -/
def c1State : McpServer := ⟨"db", [], [], [c1Instr3, c1Instr9]⟩

/-- Counterexample to claim C1: the rendering used by `resources/read` of
`prompt-forge://instructions/all` does not sort by priority — on enabled
instructions inserted [priority 3, priority 9] it differs from the rendering
the spec describes (stable priority-descending order). -/
theorem C1_counterexample :
    get_all_instructions_markdown c1State ≠ allInstructionsMarkdownSpec c1State := by
  decide

/-- Claim C1 as amended: the `resources/read` aggregate path renders the
enabled instructions in snapshot (insertion) order, each block followed by a
horizontal rule, so instructions inserted [priority 3, priority 9] come out
ordered [3, 9]; the priority-descending, stable-sorted, rule-joined
rendering is the separate `get_all_enabled_instructions` command, which does
order them [9, 3]. -/
theorem C1_markdown_keeps_snapshot_order :
    get_all_instructions_markdown c1State =
      "# Prompt Forge Instructions\n\n" ++
        renderMarkdownInstruction c1Instr3 ++ renderMarkdownInstruction c1Instr9 ∧
    get_all_enabled_instructions [c1Instr3, c1Instr9] =
      "## High\nhigh content\n\n---\n\n## Low\nlow content" :=
  ⟨rfl, rfl⟩

/-- Claim C5: `tools/call` with absent params, or with an absent or
non-string `params.name`, is a protocol-level Invalid Params error with code
-32602; a string name matching none of the six registered tools is instead a
successful envelope whose tool-result payload is flagged `isError = true`
with explanatory text, never a protocol-level error. -/
theorem C5_tools_call_error_channels (s : McpServer) :
    handle_tools_call s none = .error ⟨-32602, "Invalid params", none⟩ ∧
    (∀ p : Json, (p.get? "name").bind Json.asStr? = none →
      handle_tools_call s (some p) = .error ⟨-32602, "Missing tool name", none⟩) ∧
    (∀ (p : Json) (q : String), (p.get? "name").bind Json.asStr? = some q →
      q ∉ ["get_agent", "list_agents", "get_instructions", "get_skill", "list_skills",
            "apply_agent"] →
      handle_tools_call s (some p) =
        .ok (toolResultJson ("Unknown tool: " ++ q) (some true))) := by
  refine ⟨rfl, ?_, ?_⟩
  · intro p hp
    simp [handle_tools_call, hp]
  · intro p q hq hmem
    simp only [List.mem_cons, List.not_mem_nil, or_false, not_or] at hmem
    obtain ⟨h1, h2, h3, h4, h5, h6⟩ := hmem
    simp [handle_tools_call, hq, h1, h2, h3, h4, h5, h6]

/-- Witness for C5: the three branches at concrete inputs — no params,
params without a name, and the unregistered name "frobnicate". -/
theorem C5_witness :
    handle_tools_call ⟨"db", [], [], []⟩ none =
      .error ⟨-32602, "Invalid params", none⟩ ∧
    handle_tools_call ⟨"db", [], [], []⟩ (some (.obj [])) =
      .error ⟨-32602, "Missing tool name", none⟩ ∧
    handle_tools_call ⟨"db", [], [], []⟩ (some (.obj [("name", .str "frobnicate")])) =
      .ok (toolResultJson ("Unknown tool: " ++ "frobnicate") (some true)) :=
  ⟨(C5_tools_call_error_channels _).1,
    (C5_tools_call_error_channels _).2.1 _ rfl,
    (C5_tools_call_error_channels _).2.2 _ "frobnicate" rfl (by decide)⟩

/-- The list of enabled instructions of the given category the
`get_instructions` tool renders: the claim C8 set, in snapshot order. -/
def categoryFiltered (s : McpServer) (c : String) : List Instruction :=
  s.instructions.filter fun i =>
    i.enabled && (category_to_string i.category == toLowercase c)

/-- The list of all enabled instructions in snapshot order. -/
def enabledInstructions (s : McpServer) : List Instruction :=
  s.instructions.filter fun i => i.enabled

/-- Claim C8: with a category argument, `get_instructions` returns exactly
the enabled instructions whose canonical lowercase category token equals the
lowercased argument, in snapshot order; without one, all enabled
instructions in snapshot order; an empty filtered set yields the literal
success "No instructions found."; and the tool never returns an error. -/
theorem C8_get_instructions_filter (s : McpServer) (args : Json) :
    (∀ c, (args.get? "category").bind Json.asStr? = some c →
      ((∀ i : Instruction, i ∈ categoryFiltered s c ↔
          i ∈ s.instructions ∧ i.enabled = true ∧
            category_to_string i.category = toLowercase c) ∧
        (categoryFiltered s c).Sublist s.instructions ∧
        (categoryFiltered s c = [] →
          tool_get_instructions s args = .ok "No instructions found.") ∧
        (categoryFiltered s c ≠ [] →
          tool_get_instructions s args =
            .ok (String.join ((categoryFiltered s c).map renderGetInstruction))))) ∧
    ((args.get? "category").bind Json.asStr? = none →
      ((∀ i : Instruction, i ∈ enabledInstructions s ↔
          i ∈ s.instructions ∧ i.enabled = true) ∧
        (enabledInstructions s).Sublist s.instructions ∧
        (enabledInstructions s = [] →
          tool_get_instructions s args = .ok "No instructions found.") ∧
        (enabledInstructions s ≠ [] →
          tool_get_instructions s args =
            .ok (String.join ((enabledInstructions s).map renderGetInstruction))))) ∧
    (∃ t, tool_get_instructions s args = .ok t) := by
  have hsplit : ∀ c : String,
      ((s.instructions.filter fun i => i.enabled).filter fun i =>
          category_to_string i.category == toLowercase c) = categoryFiltered s c := by
    intro c
    rw [List.filter_filter]
    apply List.filter_congr
    intro i _
    rw [Bool.and_comm]
  refine ⟨?_, ?_, ?_⟩
  · intro c hc
    refine ⟨?_, List.filter_sublist _, ?_, ?_⟩
    · intro i
      simp [categoryFiltered, List.mem_filter]
    · intro hempty
      have hE : (categoryFiltered s c).isEmpty = true := by rw [hempty]; rfl
      simp [tool_get_instructions, hc, hsplit, hE]
    · intro hne
      have hE : (categoryFiltered s c).isEmpty = false := by
        cases hF : categoryFiltered s c with
        | nil => exact absurd hF hne
        | cons a l => rfl
      simp [tool_get_instructions, hc, hsplit, hE]
  · intro hc
    have hid : ((s.instructions.filter fun i => i.enabled).filter fun _ => true) =
        enabledInstructions s := by
      rw [List.filter_filter]
      apply List.filter_congr
      intro i _
      simp
    refine ⟨?_, List.filter_sublist _, ?_, ?_⟩
    · intro i
      simp [enabledInstructions, List.mem_filter]
    · intro hempty
      have hE : (enabledInstructions s).isEmpty = true := by rw [hempty]; rfl
      simp [tool_get_instructions, hc, hid, hE]
    · intro hne
      have hE : (enabledInstructions s).isEmpty = false := by
        cases hF : enabledInstructions s with
        | nil => exact absurd hF hne
        | cons a l => rfl
      simp [tool_get_instructions, hc, hid, hE]
  · unfold tool_get_instructions
    dsimp only
    split
    · exact ⟨_, rfl⟩
    · exact ⟨_, rfl⟩

/-- Witness for C8: a category filter ("SECURITY", matched after
lowercasing) over a snapshot holding one enabled General instruction filters
down to nothing and returns the literal "No instructions found." as a
success. -/
theorem C8_witness :
    tool_get_instructions
        ⟨"db", [], [], [mkInstruction "i1" "N" .General "c" 5 true]⟩
        (.obj [("category", .str "SECURITY")]) =
      .ok "No instructions found." :=
  ((C8_get_instructions_filter
      ⟨"db", [], [], [mkInstruction "i1" "N" .General "c" 5 true]⟩
      (.obj [("category", .str "SECURITY")])).1 "SECURITY" rfl).2.2.1 (by decide)

/-- Claim C7: `get_agent` and `get_skill` resolve by exact id match first,
then by case-insensitive name match — for skills, both sides additionally
normalized by mapping spaces and underscores to hyphens — and when neither
matches they return a tool-level error naming the requested identifier and
suggesting the corresponding list tool. -/
theorem C7_resolution_policy (s : McpServer) (argsA argsS : Json) (qa qs : String)
    (ha : (argsA.get? "agent_id").bind Json.asStr? = some qa)
    (hs : (argsS.get? "skill_id").bind Json.asStr? = some qs) :
    (∀ a, s.agents.find? (fun x => x.id == qa) = some a →
      tool_get_agent s argsA = .ok (prettyAgent a)) ∧
    (s.agents.find? (fun x => x.id == qa) = none →
      ∀ a, s.agents.find? (fun x => toLowercase x.name == toLowercase qa) = some a →
        tool_get_agent s argsA = .ok (prettyAgent a)) ∧
    (s.agents.find? (fun x => x.id == qa) = none →
      s.agents.find? (fun x => toLowercase x.name == toLowercase qa) = none →
      tool_get_agent s argsA =
        .error ("Agent not found: \x27" ++ qa ++
          "\x27. Use list_agents to see available agents.")) ∧
    (∀ sk, s.skills.find? (fun x => x.id == qs) = some sk →
      tool_get_skill s argsS = .ok (prettySkill sk)) ∧
    (s.skills.find? (fun x => x.id == qs) = none →
      ∀ sk, s.skills.find?
          (fun x => normalizeSkillName x.name == normalizeSkillName qs) = some sk →
        tool_get_skill s argsS = .ok (prettySkill sk)) ∧
    (s.skills.find? (fun x => x.id == qs) = none →
      s.skills.find? (fun x => normalizeSkillName x.name == normalizeSkillName qs) = none →
      tool_get_skill s argsS =
        .error ("Skill not found: \x27" ++ qs ++
          "\x27. Use list_skills to see available skills.")) := by
  refine ⟨?_, ?_, ?_, ?_, ?_, ?_⟩
  · intro a hfind
    simp [tool_get_agent, ha, find_agent, hfind]
  · intro hnone a hfind
    simp [tool_get_agent, ha, find_agent, hnone, hfind]
  · intro hnone1 hnone2
    simp [tool_get_agent, ha, find_agent, hnone1, hnone2]
  · intro sk hfind
    simp [tool_get_skill, hs, find_skill, hfind]
  · intro hnone sk hfind
    simp [tool_get_skill, hs, find_skill, hnone, hfind]
  · intro hnone1 hnone2
    simp [tool_get_skill, hs, find_skill, hnone1, hnone2]

/-- The skill resolved by name in the C7 witness. -/
def c7Skill : Skill := mkSkill "sk-1" "Code Review" "tpl" true

/-- Witness for C7: the query "Code_review" matches no skill id, but after
lowercasing and underscore normalization it matches the name
"Code Review". -/
theorem C7_witness :
    tool_get_skill ⟨"db", [], [c7Skill], []⟩ (.obj [("skill_id", .str "Code_review")]) =
      .ok (prettySkill c7Skill) :=
  ((C7_resolution_policy ⟨"db", [], [c7Skill], []⟩ (.obj [("agent_id", .str "q")])
      (.obj [("skill_id", .str "Code_review")]) "q" "Code_review"
      rfl rfl).2.2.2.2.1 rfl c7Skill rfl)

/-- With snapshot-unique ids, the ref lookup of the attached sections finds
exactly the enabled instruction carrying the looked-up id. -/
theorem find_instr_self (instrs : List Instruction) (i : Instruction)
    (hids : (instrs.map Instruction.id).Nodup) (hmem : i ∈ instrs)
    (hen : i.enabled = true) :
    instrs.find? (fun j => j.id == i.id && j.enabled) = some i := by
  induction instrs with
  | nil => cases hmem
  | cons j tl ih =>
    rw [List.map_cons, List.nodup_cons] at hids
    obtain ⟨hjid, htl⟩ := hids
    by_cases hj : (j.id == i.id && j.enabled) = true
    · have hiid : j.id = i.id := eq_of_beq (Bool.and_elim_left hj)
      have hij : i = j := by
        rcases List.mem_cons.1 hmem with h | h
        · exact h
        · exfalso
          apply hjid
          rw [hiid]
          exact List.mem_map_of_mem Instruction.id h
      have hstep := @List.find?_cons_of_pos _ (fun x => x.id == i.id && x.enabled) j tl hj
      rw [hstep, hij]
    · have hne : i ≠ j := by
        intro h
        apply hj
        rw [← h]
        simp [hen]
      have hmem2 : i ∈ tl := by
        rcases List.mem_cons.1 hmem with h | h
        · exact absurd h hne
        · exact h
      have hstep := @List.find?_cons_of_neg _ (fun x => x.id == i.id && x.enabled) j tl hj
      rw [hstep]
      exact ih htl hmem2

/-- A ref lookup for a different id never yields the instruction `i`. -/
theorem find_instr_other (instrs : List Instruction) (x : String) (i k : Instruction)
    (hx : x ≠ i.id) (hk : instrs.find? (fun j => j.id == x && j.enabled) = some k) :
    k ≠ i := by
  intro hki
  have hp := List.find?_some hk
  have hkx : k.id = x := eq_of_beq (Bool.and_elim_left hp)
  apply hx
  rw [← hkx, hki]

/-- An instruction whose id is not among the refs never appears in the
attached list. -/
theorem attached_count_zero (refs : List String) (instrs : List Instruction)
    (i : Instruction) (h : i.id ∉ refs) :
    (attachedInstructions refs instrs).count i = 0 := by
  induction refs with
  | nil => rfl
  | cons r rt ih =>
    have hr : r ≠ i.id := by
      intro he
      exact h (he ▸ List.mem_cons_self r rt)
    have hnotin : i.id ∉ rt := fun hh => h (List.mem_cons_of_mem _ hh)
    cases hf : instrs.find? (fun j => j.id == r && j.enabled) with
    | none =>
      have hrw : attachedInstructions (r :: rt) instrs = attachedInstructions rt instrs := by
        simp only [attachedInstructions, List.filterMap_cons, hf]
      rw [hrw]
      exact ih hnotin
    | some k =>
      have hrw : attachedInstructions (r :: rt) instrs =
          k :: attachedInstructions rt instrs := by
        simp only [attachedInstructions, List.filterMap_cons, hf]
      rw [hrw, List.count_cons_of_ne (Ne.symm (find_instr_other instrs r i k hr hf))]
      exact ih hnotin

/-- With duplicate-free refs and snapshot-unique ids, an enabled snapshot
instruction whose id is among the refs appears exactly once in the attached
list. -/
theorem attached_count_one (refs : List String) (instrs : List Instruction)
    (i : Instruction) (hrefs : refs.Nodup) (hids : (instrs.map Instruction.id).Nodup)
    (hmem : i ∈ instrs) (hen : i.enabled = true) (h : i.id ∈ refs) :
    (attachedInstructions refs instrs).count i = 1 := by
  induction refs with
  | nil => cases h
  | cons r rt ih =>
    obtain ⟨hrnotin, hrt⟩ := List.nodup_cons.1 hrefs
    by_cases hr : r = i.id
    · subst hr
      have hrw : attachedInstructions (i.id :: rt) instrs =
          i :: attachedInstructions rt instrs := by
        simp only [attachedInstructions, List.filterMap_cons,
          find_instr_self instrs i hids hmem hen]
      rw [hrw, List.count_cons_self, attached_count_zero rt instrs i hrnotin]
    · have hidin : i.id ∈ rt := by
        rcases List.mem_cons.1 h with he | he
        · exact absurd he.symm hr
        · exact he
      cases hf : instrs.find? (fun j => j.id == r && j.enabled) with
      | none =>
        have hrw : attachedInstructions (r :: rt) instrs =
            attachedInstructions rt instrs := by
          simp only [attachedInstructions, List.filterMap_cons, hf]
        rw [hrw]
        exact ih hrt hidin
      | some k =>
        have hrw : attachedInstructions (r :: rt) instrs =
            k :: attachedInstructions rt instrs := by
          simp only [attachedInstructions, List.filterMap_cons, hf]
        rw [hrw, List.count_cons_of_ne (Ne.symm (find_instr_other instrs r i k hr hf))]
        exact ih hrt hidin

/-- An instruction whose id is among the refs never appears in the global
list. -/
theorem global_count_zero (refs : List String) (instrs : List Instruction)
    (i : Instruction) (h : i.id ∈ refs) :
    (globalInstructions refs instrs).count i = 0 := by
  rw [List.count_eq_zero]
  intro hmem
  rw [globalInstructions, List.mem_filter] at hmem
  have hp := hmem.2
  rw [Bool.and_eq_true] at hp
  have hcontains : refs.contains i.id = true := by simpa using h
  rw [hcontains] at hp
  exact absurd hp.2 (by simp)

/-- With snapshot-unique ids, an enabled snapshot instruction whose id is
not among the refs appears exactly once in the global list. -/
theorem global_count_one (refs : List String) (instrs : List Instruction)
    (i : Instruction) (hids : (instrs.map Instruction.id).Nodup)
    (hmem : i ∈ instrs) (hen : i.enabled = true) (h : i.id ∉ refs) :
    (globalInstructions refs instrs).count i = 1 := by
  have hnd : instrs.Nodup := List.Nodup.of_map Instruction.id hids
  have hp : (i.enabled && !(refs.contains i.id)) = true := by
    rw [hen]
    simpa using h
  have hcf := @List.count_filter _ _ _
    (fun x => x.enabled && !(refs.contains x.id)) i instrs hp
  rw [globalInstructions, hcf]
  exact List.count_eq_one_of_mem hnd hmem

/-- Claim C6: for duplicate-free `instructionRefs` (over a snapshot whose
instruction ids are unique, as the database primary key guarantees),
apply_agent partitions the enabled instructions: one whose id is referenced
appears exactly once in the list rendered under Attached Instructions
(`attachedInstructions`, the list `tool_apply_agent` renders there) and not
at all in the Global Instructions list (`globalInstructions`), and one whose
id is not referenced appears exactly once in the global list and not at all
in the attached list. -/
theorem C6_apply_agent_partition (refs : List String) (instrs : List Instruction)
    (i : Instruction) (hrefs : refs.Nodup) (hids : (instrs.map Instruction.id).Nodup)
    (hmem : i ∈ instrs) (hen : i.enabled = true) :
    (i.id ∈ refs →
      (attachedInstructions refs instrs).count i = 1 ∧
      (globalInstructions refs instrs).count i = 0) ∧
    (i.id ∉ refs →
      (attachedInstructions refs instrs).count i = 0 ∧
      (globalInstructions refs instrs).count i = 1) :=
  ⟨fun h => ⟨attached_count_one refs instrs i hrefs hids hmem hen h,
      global_count_zero refs instrs i h⟩,
    fun h => ⟨attached_count_zero refs instrs i h,
      global_count_one refs instrs i hids hmem hen h⟩⟩

/-- The referenced instruction of the claim C6 witness scenario. -/
def c6I1 : Instruction := mkInstruction "i1" "First" .General "X" 5 true

/-- The unreferenced instruction of the claim C6 witness scenario. -/
def c6I2 : Instruction := mkInstruction "i2" "Second" .General "Y" 5 true

/-- Witness for C6: the spec scenario — refs ["i1"] over enabled i1/i2 —
puts i1 exactly once in the attached list and never in the global list, and
i2 exactly once in the global list and never in the attached list. -/
theorem C6_witness :
    ((attachedInstructions ["i1"] [c6I1, c6I2]).count c6I1 = 1 ∧
      (globalInstructions ["i1"] [c6I1, c6I2]).count c6I1 = 0) ∧
    ((attachedInstructions ["i1"] [c6I1, c6I2]).count c6I2 = 0 ∧
      (globalInstructions ["i1"] [c6I1, c6I2]).count c6I2 = 1) :=
  ⟨(C6_apply_agent_partition ["i1"] [c6I1, c6I2] c6I1 (by decide) (by decide)
      (by decide) rfl).1 (by decide),
    (C6_apply_agent_partition ["i1"] [c6I1, c6I2] c6I2 (by decide) (by decide)
      (by decide) rfl).2 (by decide)⟩

end PromptForge
